import Mathlib

/-
Verification of the resilient generation pipeline of dentisdev/dentallypro.

The definitions below are a shallow embedding of the TypeScript source:
  * src/services/geminiService.ts : error classification (isRetryableError),
    exponential-backoff retry (withRetry), model fallback (withModelFallback),
    response parsing (parseAIResponse), research-prompt degradation
    (generateResearchContent), credential check.
  * src/App.tsx (handleConvert) : the per-workspace sequential image batch
    loops and the per-workspace state updates around the primary task.

JavaScript machine details are made explicit: `undefined` is `Option.none`,
the falsy fallthrough of `||` on strings/numbers is modelled by `jsOrStr` /
`jsOrInt`, millisecond waits are rationals (a JS double produced by
`Math.random()` is a rational number), and thrown values are either raw
strings or objects carrying optional `message` / `status` / `code` /
`error.message` / `error.code` fields.
-/

/-! ## JavaScript string and value helpers -/

/-- `charPrefix n h` : the char list `n` is a prefix of `h`. -/
def charPrefix : List Char → List Char → Bool
  | [], _ => true
  | _ :: _, [] => false
  | a :: as, b :: bs => a = b && charPrefix as bs

/-- `charInfix n h` : the char list `n` occurs contiguously inside `h`. -/
def charInfix (needle : List Char) : List Char → Bool
  | [] => charPrefix needle []
  | c :: cs => charPrefix needle (c :: cs) || charInfix needle cs

/-- JS `hay.includes(needle)`. -/
def strIncludes (hay needle : String) : Bool :=
  charInfix needle.toList hay.toList

/-- The whitespace set trimmed by JS `String.prototype.trim`: the
ECMAScript WhiteSpace characters (TAB, VT, FF, SP, NBSP, ZWNBSP and the
Space_Separator category U+1680, U+2000-U+200A, U+202F, U+205F, U+3000)
together with the LineTerminator characters (LF, CR, U+2028, U+2029). -/
def isJsSpace (c : Char) : Bool :=
  c = ' ' || c = '\t' || c = '\n' || c = '\r' || c = '\x0b' || c = '\x0c' ||
  c = '\u00A0' || c = '\uFEFF' || c = '\u1680' ||
  ('\u2000' ≤ c && c ≤ '\u200A') ||
  c = '\u2028' || c = '\u2029' || c = '\u202F' || c = '\u205F' || c = '\u3000'

/-- JS `trim` on char lists: drop whitespace from both ends. -/
def jsTrimList (l : List Char) : List Char :=
  ((l.dropWhile isJsSpace).reverse.dropWhile isJsSpace).reverse

/-- JS `s.trim()`. -/
def jsTrim (s : String) : String :=
  String.mk (jsTrimList s.toList)

/-- JS `toLowerCase` (character-wise; identity on non-cased letters). -/
def jsToLower (s : String) : String :=
  String.mk (s.toList.map Char.toLower)

/-- JS `a || b` for string-valued expressions: `a` wins unless it is
`undefined` (`none`) or the empty string (falsy). -/
def jsOrStr : Option String → Option String → Option String
  | some s, b => if s = "" then b else some s
  | none, b => b

/-- JS `a || b` for number-valued expressions: `a` wins unless it is
`undefined` or `0` (falsy). -/
def jsOrInt : Option Int → Option Int → Option Int
  | some v, b => if v = 0 then b else some v
  | none, b => b

/-! ## Error values

A thrown JS value is either a raw string or an object with the optional
fields the service code reads: `message`, `status`, `code`, and a nested
`error` object with `message` and `code`.  `new Error(msg)` values are
modelled as objects whose `message` field is `some msg`. -/

structure ErrObj where
  message : Option String
  status : Option Int
  code : Option Int
  errorMessage : Option String
  errorCode : Option Int
deriving DecidableEq, Repr

inductive ErrVal where
  | strErr (s : String)
  | objErr (o : ErrObj)
deriving DecidableEq, Repr

/-- `new Error(s)` : an object error carrying only a message. -/
def mkError (s : String) : ErrVal :=
  .objErr ⟨some s, none, none, none, none⟩

/-- Minimal JSON escaping used by `stringifyErrObj` (quote and backslash). -/
def escapeJson (s : String) : String :=
  String.mk (s.toList.flatMap (fun c =>
    if c = '\\' then ['\\', '\\']
    else if c = '"' then ['\\', '"']
    else [c]))

/-- `JSON.stringify` on the modelled plain-object error shape: present
fields serialize in declaration order, `undefined` fields are omitted. -/
def stringifyErrObj (o : ErrObj) : String :=
  let inner :=
    (match o.errorMessage with
      | some m => ["\"message\":\"" ++ escapeJson m ++ "\""]
      | none => []) ++
    (match o.errorCode with
      | some v => ["\"code\":" ++ toString v]
      | none => [])
  let fields :=
    (match o.message with
      | some m => ["\"message\":\"" ++ escapeJson m ++ "\""]
      | none => []) ++
    (match o.status with
      | some v => ["\"status\":" ++ toString v]
      | none => []) ++
    (match o.code with
      | some v => ["\"code\":" ++ toString v]
      | none => []) ++
    (if inner.isEmpty then []
     else ["\"error\":\x7b" ++ String.intercalate "," inner ++ "\x7d"])
  "\x7b" ++ String.intercalate "," fields ++ "\x7d"

/-- geminiService.ts lines 11-15: the lower-cased message text used by
`isRetryableError`:
`(error?.message || error?.error?.message ||
  (typeof error === 'string' ? error : JSON.stringify(error))).toLowerCase()`. -/
def errLowerMsg : ErrVal → String
  | .strErr s => jsToLower s
  | .objErr o =>
      jsToLower ((jsOrStr o.message
        (jsOrStr o.errorMessage (some (stringifyErrObj o)))).getD "")

/-- geminiService.ts line 17: `error?.status || error?.code || error?.error?.code`. -/
def jsStatus : ErrVal → Option Int
  | .strErr _ => none
  | .objErr o => jsOrInt o.status (jsOrInt o.code o.errorCode)

/-- geminiService.ts line 20: the strict 429 / quota check of
`isRetryableError` (the system's rate-limit classification). -/
def isQuotaFlavored (e : ErrVal) : Bool :=
  jsStatus e == some 429 || strIncludes (errLowerMsg e) "429" ||
  strIncludes (errLowerMsg e) "quota" ||
  strIncludes (errLowerMsg e) "resource_exhausted"

/-- geminiService.ts lines 10-36: `isRetryableError(error, retryOnQuota)`. -/
def isRetryableError (e : ErrVal) (retryOnQuota : Bool) : Bool :=
  if isQuotaFlavored e then retryOnQuota
  else
    strIncludes (errLowerMsg e) "error code: 6" ||
    strIncludes (errLowerMsg e) "failed to fetch" ||
    strIncludes (errLowerMsg e) "networkerror" ||
    jsStatus e == some 503 || jsStatus e == some 504

/-! ## Retry policy (geminiService.ts lines 79-116)

`withRetry` is interpreted deterministically: the attempt function is a
function of the attempt index, `Math.random() * 1000` is an explicit
jitter sequence, and the interpreter returns the outcome together with
the number of attempts made and the list of backoff waits (ms) in order.
`RetryOut.undef` models `throw lastError` with `lastError` still
`undefined` (reachable only when `retries = 0`). -/

inductive RetryOut (α : Type) where
  | ok (v : α)
  | err (e : ErrVal)
  | undef
deriving DecidableEq, Repr

/-- geminiService.ts lines 96-97: the quota test that picks the backoff
base inside `withRetry`; it reads only `error?.message` and
`error?.status`. -/
def retryIsQuota (e : ErrVal) : Bool :=
  let msg := jsToLower
    (match e with
      | .strErr _ => ""
      | .objErr o => (jsOrStr o.message (some "")).getD "")
  strIncludes msg "quota" || strIncludes msg "429" ||
  strIncludes msg "resource_exhausted" ||
  (match e with
    | .strErr _ => false
    | .objErr o => o.status == some 429)

/-- The loop body of `withRetry`, at loop index `i` with `fuel` iterations
of the `for` loop remaining.  Returns (outcome, attempts made, waits). -/
def withRetryAux (fn : Nat → Except ErrVal α) (jitter : Nat → ℚ)
    (retries : Nat) (retryOnQuota : Bool) :
    Nat → Nat → RetryOut α × Nat × List ℚ
  | _, 0 => (.undef, 0, [])
  | i, fuel + 1 =>
    match fn i with
    | .ok v => (.ok v, 1, [])
    | .error e =>
      if isRetryableError e retryOnQuota then
        if i < retries - 1 then
          let base : ℚ := if retryIsQuota e then 8000 else 2000
          let wait := base * 2 ^ i + jitter i
          let rest := withRetryAux fn jitter retries retryOnQuota (i + 1) fuel
          (rest.1, rest.2.1 + 1, wait :: rest.2.2)
        else (.err e, 1, [])
      else (.err e, 1, [])

/-- geminiService.ts lines 79-116: `withRetry(fn, retries, retryOnQuota)`. -/
def withRetry (fn : Nat → Except ErrVal α) (jitter : Nat → ℚ)
    (retries : Nat) (retryOnQuota : Bool) : RetryOut α × Nat × List ℚ :=
  withRetryAux fn jitter retries retryOnQuota 0 retries

/-! ## Credential check and model fallback (geminiService.ts lines 5-76) -/

/-- geminiService.ts line 47: `!apiKey || apiKey === "undefined" ||
apiKey.trim() === ""` applied to `process.env.API_KEY`. -/
def apiKeyAbsent : Option String → Bool
  | none => true
  | some k => k = "" || k = "undefined" || jsTrim k = ""

/-- geminiService.ts line 49: the missing-credential error. -/
def missingKeyError : ErrVal :=
  mkError "مفتاح API مفقود! تأكد من إعدادات البيئة (Environment Variables)."

/-- geminiService.ts line 61: the quota test used by `withModelFallback`
to choose the inter-model cooldown:
`error?.message?.includes("429") || error?.message?.toLowerCase().includes("quota")`. -/
def fallbackIsQuota : ErrVal → Bool
  | .strErr _ => false
  | .objErr o =>
    match o.message with
    | none => false
    | some m => strIncludes m "429" || strIncludes (jsToLower m) "quota"

/-- The `for (const model of models)` loop of `withModelFallback`; walks the
remaining sublist while `models` stays the full list (the source recomputes
`models.indexOf(model)` against the full list).  Returns the outcome, the
models on which `operation` was invoked (in order), and the inter-model
cooldown waits (ms). -/
def withModelFallbackAux (operation : String → String → Except ErrVal α)
    (models : List String) (key : String) :
    List String → Option ErrVal → RetryOut α × List String × List ℚ
  | [], last =>
    ((match last with | some e => .err e | none => .undef), [], [])
  | m :: rest, _ =>
    match operation m key with
    | .ok v => (.ok v, [m], [])
    | .error e =>
      let next := withModelFallbackAux operation models key rest (some e)
      if models.indexOf m < models.length - 1 then
        (next.1, m :: next.2.1,
          (if fallbackIsQuota e then (8000 : ℚ) else 1000) :: next.2.2)
      else
        (next.1, m :: next.2.1, next.2.2)

/-- geminiService.ts lines 41-76: `withModelFallback(operation, models)`
with the process credential passed explicitly. -/
def withModelFallback (operation : String → String → Except ErrVal α)
    (models : List String) (apiKey : Option String) :
    RetryOut α × List String × List ℚ :=
  match apiKey with
  | none => (.err missingKeyError, [], [])
  | some k =>
    if k = "" || k = "undefined" || jsTrim k = "" then
      (.err missingKeyError, [], [])
    else withModelFallbackAux operation models k models none

/-! ## The composed pipeline: fallback around retry

Every generation task in geminiService.ts has the shape
`withModelFallback(async (model, key) => withRetry(async attempt =>
adapter(model, key, attempt), retries, retryOnQuota))`.  The composed
interpreter records, per candidate model, the number of adapter attempts
made against it, and all waits (retry backoffs and inter-model cooldowns)
in chronological order.  An inner `withRetry` that threw `undefined`
(only possible with `retries = 0`) makes `lastError` the JS value
`undefined`, modelled by `some none`. -/

def runGenerationAux (adapter : String → String → Nat → Except ErrVal α)
    (jitter : Nat → ℚ) (retries : Nat) (retryOnQuota : Bool)
    (models : List String) (key : String) :
    List String → Option (Option ErrVal) →
    RetryOut α × List (String × Nat) × List ℚ
  | [], last =>
    ((match last with
      | some (some e) => .err e
      | some none => .undef
      | none => .undef), [], [])
  | m :: rest, _ =>
    match withRetry (adapter m key) jitter retries retryOnQuota with
    | (.ok v, n, ws) => (.ok v, [(m, n)], ws)
    | (.err e, n, ws) =>
      let next := runGenerationAux adapter jitter retries retryOnQuota
        models key rest (some (some e))
      if models.indexOf m < models.length - 1 then
        (next.1, (m, n) :: next.2.1,
          ws ++ (if fallbackIsQuota e then (8000 : ℚ) else 1000) :: next.2.2)
      else (next.1, (m, n) :: next.2.1, ws ++ next.2.2)
    | (.undef, n, ws) =>
      let next := runGenerationAux adapter jitter retries retryOnQuota
        models key rest (some none)
      if models.indexOf m < models.length - 1 then
        (next.1, (m, n) :: next.2.1, ws ++ (1000 : ℚ) :: next.2.2)
      else (next.1, (m, n) :: next.2.1, ws ++ next.2.2)

/-- A generation task: `withModelFallback` around `withRetry` around the
adapter, with the credential check up front. -/
def runGeneration (adapter : String → String → Nat → Except ErrVal α)
    (jitter : Nat → ℚ) (retries : Nat) (retryOnQuota : Bool)
    (models : List String) (apiKey : Option String) :
    RetryOut α × List (String × Nat) × List ℚ :=
  match apiKey with
  | none => (.err missingKeyError, [], [])
  | some k =>
    if k = "" || k = "undefined" || jsTrim k = "" then
      (.err missingKeyError, [], [])
    else runGenerationAux adapter jitter retries retryOnQuota models k models none

/-! ## Response parsing (geminiService.ts lines 118-132)

`parseAIResponse` strips the code-fence markers with the global regex
(an alternation preferring a backtick fence followed by `json` and an
optional newline over a bare triple backtick, scanned left to right),
trims, slices between the first opening and last closing curly brace,
and hands the slice to `JSON.parse`.  `JSON.parse` is an external
library call and enters the embedding as the parameter `jp`. -/

/-- One step of the fence regex at the current position: if a fence
alternative matches at the head, return the remainder after the match. -/
def fenceSkip : List Char → Option (List Char)
  | '`' :: '`' :: '`' :: rest =>
    some (match rest with
      | 'j' :: 's' :: 'o' :: 'n' :: rest2 =>
        (match rest2 with
          | '\n' :: rest3 => rest3
          | _ => rest2)
      | _ => rest)
  | _ => none

/-- The left-to-right global replace of the fence regex by the empty
string, with fuel (the list length always suffices: every step consumes
at least one character). -/
def stripFencesGo : Nat → List Char → List Char
  | 0, l => l
  | _ + 1, [] => []
  | fuel + 1, c :: cs =>
    match fenceSkip (c :: cs) with
    | some rest => stripFencesGo fuel rest
    | none => c :: stripFencesGo fuel cs

/-- geminiService.ts line 120: ``text.replace(/```json\n?|```/g, '')``. -/
def stripFences (l : List Char) : List Char :=
  stripFencesGo l.length l

/-- JS `indexOf` of a character (`none` for -1). -/
def firstIdx (c : Char) : List Char → Option Nat
  | [] => none
  | a :: l => if a = c then some 0 else (firstIdx c l).map (· + 1)

/-- JS `lastIndexOf` of a character (`none` for -1). -/
def lastIdx (c : Char) (l : List Char) : Option Nat :=
  (firstIdx c l.reverse).map (fun i => l.length - 1 - i)

/-- JS `String.prototype.substring(a, b)`: clamps and swaps its
arguments when `a > b`. -/
def jsSubstring (a b : Nat) (l : List Char) : List Char :=
  (l.take (max a b)).drop (min a b)

/-- geminiService.ts lines 118-132: `parseAIResponse(text)` for a response
body `text` (`none` = `undefined`) and external parser `jp`. -/
def parseAIResponse (jp : String → Option α) (text : Option String) :
    Except ErrVal α :=
  match text with
  | none => .error (mkError "استجابة فارغة من المحرك.")
  | some t =>
    if t = "" then .error (mkError "استجابة فارغة من المحرك.")
    else
      let clean0 := jsTrimList (stripFences t.toList)
      let clean :=
        match firstIdx '{' clean0, lastIdx '}' clean0 with
        | some i, some j => jsSubstring i (j + 1) clean0
        | _, _ => clean0
      match jp (String.mk clean) with
      | some v => .ok v
      | none => .error (mkError "فشل في قراءة بيانات JSON من الاستجابة.")

/-! ## Research-prompt degradation (geminiService.ts lines 236-268)

The research/gallery task parses the response text inside a `try`; on a
parse failure it falls back to three generic prompts derived from the
topic, then pads with the generic clinical prompt while fewer than three
prompts exist and takes the first three.  `jp` returns the parsed
object's `imagePrompts` field: `some (some ps)` when present and an
array, `some none` when the object parses but has no such array. -/

def generateResearchPrompts (jp : String → Option (Option (List String)))
    (respText : Option String) (topic : String) : List String :=
  let prompts :=
    match parseAIResponse jp respText with
    | .ok (some ps) => ps
    | .ok none => []
    | .error _ =>
      ["Dental clinical view of " ++ topic,
       "Anatomical diagram of " ++ topic,
       "X-ray of " ++ topic]
  (prompts ++
    List.replicate (3 - prompts.length) ("Dental clinical view of " ++ topic)).take 3

/-! ## Sequential image batch loops (App.tsx, handleConvert)

`generateRealisticDentalImage` (geminiService.ts lines 322-357) wraps its
whole pipeline in a `try` that returns `null` on any failure, so in the
App loops the awaited call never throws: each sub-request outcome is an
`Option String` (`some dataUrl` on success, `none` on failure).  Each
loop is modelled as the chronological list of its observable events plus
(where the workspace keeps per-item statuses) the final status list. -/

inductive ItemStatus where
  | pending
  | loading
  | completed
  | failed
deriving DecidableEq, Repr

/-- Events of a batch run: a sub-request starting, an outcome being
published to the workspace record, and a cooldown wait (ms). -/
inductive BatchEv where
  | request (i : Nat)
  | record (i : Nat) (st : ItemStatus)
  | cooldown (ms : Nat)
deriving DecidableEq, Repr

/-- Status written for a sub-request outcome. -/
def outStatus : Option String → ItemStatus
  | some _ => .completed
  | none => .failed

/-- App.tsx lines 326-348 (simulation branch): the image loop issues the
three sub-requests in order, publishes only successful images, and runs
`await new Promise(r => setTimeout(r, 6000))` after every sub-request,
successful or not (the `catch` that skips the delay is unreachable since
the image task never throws). -/
def simulationLoop : Nat → List (Option String) → List BatchEv
  | _, [] => []
  | i, out :: rest =>
    BatchEv.request i ::
      ((match out with
        | some _ => [BatchEv.record i .completed]
        | none => []) ++
       BatchEv.cooldown 6000 :: simulationLoop (i + 1) rest)

/-- App.tsx lines 379-419 (practical branch): each step with a visual
prompt is set `loading`, its sub-request runs, its terminal status is
recorded, and a 6000 ms cooldown runs only when an image was produced;
steps without a visual prompt are skipped and keep their initial
`completed` status.  Input: (hasVisualPrompt, outcome) per step.
Returns (events, final per-step statuses). -/
def practicalLoop : Nat → List (Bool × Option String) →
    List BatchEv × List ItemStatus
  | _, [] => ([], [])
  | i, (hasPrompt, out) :: rest =>
    let next := practicalLoop (i + 1) rest
    if hasPrompt then
      (BatchEv.record i .loading :: BatchEv.request i ::
        BatchEv.record i (outStatus out) ::
        ((if out.isSome then [BatchEv.cooldown 6000] else []) ++ next.1),
       outStatus out :: next.2)
    else (next.1, ItemStatus.completed :: next.2)

/-- App.tsx lines 448-476 (gallery branch): every item (initially
`loading`) gets one sub-request; the outcome status is recorded and a
6000 ms cooldown runs only when an image was produced.
Returns (events, final per-item statuses). -/
def galleryLoop : Nat → List (Option String) →
    List BatchEv × List ItemStatus
  | _, [] => ([], [])
  | i, out :: rest =>
    let next := galleryLoop (i + 1) rest
    (BatchEv.request i :: BatchEv.record i (outStatus out) ::
      ((if out.isSome then [BatchEv.cooldown 6000] else []) ++ next.1),
     outStatus out :: next.2)

/-- Concatenation of per-item event blocks, indexed from `i`. -/
def blocksConcat (f : Nat → σ → List BatchEv) : Nat → List σ → List BatchEv
  | _, [] => []
  | i, x :: xs => f i x ++ blocksConcat f (i + 1) xs

/-- Per-item event block as the spec describes the runner for the
practical and gallery workspaces: cooldown exactly after a success. -/
def galleryBlockSpec (k : Nat) (out : Option String) : List BatchEv :=
  [BatchEv.request k, BatchEv.record k (outStatus out)] ++
    (if out.isSome then [BatchEv.cooldown 6000] else [])

/-- Per-step event block for the practical loop: prompted steps add a
`loading` mark before the sub-request; cooldown exactly after a success. -/
def practicalBlockSpec (k : Nat) (x : Bool × Option String) : List BatchEv :=
  if x.1 then
    [BatchEv.record k .loading, BatchEv.request k,
     BatchEv.record k (outStatus x.2)] ++
      (if x.2.isSome then [BatchEv.cooldown 6000] else [])
  else []

/-- Per-item event block actually implemented by the simulation loop:
the cooldown is unconditional, also after a failed sub-request. -/
def simulationBlockSpec (k : Nat) (out : Option String) : List BatchEv :=
  BatchEv.request k ::
    ((match out with
      | some _ => [BatchEv.record k .completed]
      | none => []) ++ [BatchEv.cooldown 6000])

/-! ## Workspace state and the primary-task paths of handleConvert
    (App.tsx lines 277-533)

Only the state cells the claims are about are modelled; primary payloads
are opaque (the claims do not depend on their contents).  Each branch
function applies, in source order, the state updates of `handleConvert`
for one workspace around a primary task whose settlement is the
`Except` argument; the background image batches are modelled separately
by the loop functions above. -/

structure AppState where
  simulationData : Option String
  practicalData : Option String
  galleryItems : List ItemStatus
  quizData : Option String
  checkedPracticalSteps : List Nat
  revealedAnswers : List String
  errorStatus : Option String
  apiKeyMissing : Bool
  loading : Bool
deriving DecidableEq, Repr

/-- App.tsx lines 511-513: the display message of the catch block:
`error?.message || error?.toString() || "Unknown Error"`
(for message-less plain objects `toString()` is `"[object Object]"`). -/
def errToDisplayMsg : ErrVal → String
  | .strErr s => if s = "" then "Unknown Error" else s
  | .objErr o =>
    match jsOrStr o.message none with
    | some m => m
    | none => "[object Object]"

/-- App.tsx lines 515-524: the status string set by the catch block and
whether `setApiKeyMissing(true)` fires. -/
def deriveStatus (e : ErrVal) : String × Bool :=
  let msg := errToDisplayMsg e
  if strIncludes (jsToLower msg) "quota" || strIncludes msg "429" then
    ("يرجى المحاولة بعد قليل.", false)
  else if strIncludes msg "API_KEY" then
    ("خطأ: مفتاح API مفقود. تأكد من إعداد ملف .env بشكل صحيح.", true)
  else
    ("حدث خطأ: " ++ String.mk (msg.toList.take 100) ++ "...", false)

/-- The catch block of `handleConvert`: surfaces one status message and,
for credential errors, raises the missing-key banner; it touches no
workspace content cell. -/
def catchBlock (st : AppState) (e : ErrVal) : AppState :=
  { st with
    errorStatus := some (deriveStatus e).1,
    apiKeyMissing := st.apiKeyMissing || (deriveStatus e).2 }

/-- Shared prologue of every branch: `setErrorStatus(null); setLoading(true)`. -/
def branchPrologue (st : AppState) : AppState :=
  { st with errorStatus := none, loading := true }

/-- App.tsx simulation text path: nothing is cleared before the primary
task; on success the fresh payload replaces the record, on failure the
catch block runs, and `finally` releases `loading` (the tab is neither
practical nor gallery). -/
def runSimulationBranch (st : AppState) (task : Except ErrVal String) :
    AppState :=
  let st1 := branchPrologue st
  match task with
  | .ok d => { st1 with simulationData := some d, loading := false }
  | .error e => { catchBlock st1 e with loading := false }

/-- App.tsx practical path: `setCheckedPracticalSteps([])` runs before the
primary task; on success the protocol is published and `loading` released
explicitly; on failure the catch block runs and `finally` skips
`setLoading(false)` for this tab. -/
def runPracticalBranch (st : AppState) (task : Except ErrVal String) :
    AppState :=
  let st1 := branchPrologue st
  let st2 := { st1 with checkedPracticalSteps := [] }
  match task with
  | .ok d => { st2 with practicalData := some d, loading := false }
  | .error e => catchBlock st2 e

/-- App.tsx gallery path: `setGalleryItems([])` runs before the primary
task; on success one `loading` item per prompt is published and `loading`
released explicitly; on failure the catch block runs and `finally` skips
`setLoading(false)` for this tab. -/
def runGalleryBranch (st : AppState) (task : Except ErrVal Nat) :
    AppState :=
  let st1 := branchPrologue st
  let st2 := { st1 with galleryItems := [] }
  match task with
  | .ok n =>
    { st2 with galleryItems := List.replicate n .loading, loading := false }
  | .error e => catchBlock st2 e

/-- App.tsx quiz path: `setQuizData(null); setRevealedAnswers({})` run
before the primary task; on success the quiz is published; on failure the
catch block runs; `finally` releases `loading` for this tab. -/
def runQuizBranch (st : AppState) (task : Except ErrVal String) :
    AppState :=
  let st1 := branchPrologue st
  let st2 := { st1 with quizData := none, revealedAnswers := [] }
  match task with
  | .ok d => { st2 with quizData := some d, loading := false }
  | .error e => { catchBlock st2 e with loading := false }

/-! ## Helper lemmas -/

/-- A char list trims to nothing exactly when all its characters are
whitespace. -/
theorem jsTrimList_eq_nil_iff (l : List Char) :
    jsTrimList l = [] ↔ ∀ c ∈ l, isJsSpace c = true := by
  unfold jsTrimList
  rw [List.reverse_eq_nil_iff, List.dropWhile_eq_nil_iff]
  constructor
  · intro h c hc
    have hsplit := List.takeWhile_append_dropWhile isJsSpace l
    rw [← hsplit] at hc
    rcases List.mem_append.mp hc with h1 | h2
    · exact List.mem_takeWhile_imp h1
    · exact h c (List.mem_reverse.mpr h2)
  · intro h c hc
    exact h c ((List.dropWhile_sublist _).subset (List.mem_reverse.mp hc))

/-- A string trims to empty exactly when all its characters are
whitespace. -/
theorem jsTrim_eq_empty_iff (s : String) :
    jsTrim s = "" ↔ ∀ c ∈ s.toList, isJsSpace c = true := by
  unfold jsTrim
  constructor
  · intro h
    have : jsTrimList s.toList = [] := by
      have := congrArg String.data h
      simpa using this
    exact (jsTrimList_eq_nil_iff _).mp this
  · intro h
    have h2 : jsTrimList s.toList = [] := (jsTrimList_eq_nil_iff _).mpr h
    rw [h2]

/-- C10 helper: a string that is not all-whitespace is nonempty. -/
theorem ne_empty_of_not_all_space {s : String}
    (h : ¬ ∀ c ∈ s.toList, isJsSpace c = true) : s ≠ "" := by
  intro hc
  subst hc
  exact h (by intro c hc2; simp at hc2)

/-- C7 helper: appending to a nonempty string is nonempty. -/
theorem append_ne_empty_left {s : String} (t : String) (hs : s ≠ "") :
    s ++ t ≠ "" := by
  intro h
  have hl := congrArg String.length h
  rw [String.length_append] at hl
  have hs0 : s.length = 0 := by
    have : (String.length "") = 0 := rfl
    omega
  apply hs
  cases s with
  | mk l =>
    cases l with
    | nil => rfl
    | cons a t' => simp [String.length] at hs0

/-! ## C10 : credential-absence check -/

/-- C10: the credential check of `withModelFallback` treats an unset
credential, the literal string "undefined", and any whitespace-only
string (including the empty string) as absent — every generation task
then throws the missing-credential error with the operation never
invoked — and any other string passes the check. -/
theorem credential_absence_characterization {α : Type} (k : String)
    (op : String → String → Except ErrVal α) (models : List String) :
    (apiKeyAbsent none = true ∧ apiKeyAbsent (some "undefined") = true) ∧
    ((∀ c ∈ k.toList, isJsSpace c = true) →
      apiKeyAbsent (some k) = true ∧
      withModelFallback op models (some k) = (.err missingKeyError, [], [])) ∧
    (k ≠ "undefined" → (¬ ∀ c ∈ k.toList, isJsSpace c = true) →
      apiKeyAbsent (some k) = false) := by
  refine ⟨⟨rfl, by decide⟩, ?_, ?_⟩
  · intro h
    have htrim : jsTrim k = "" := (jsTrim_eq_empty_iff k).mpr h
    constructor
    · simp [apiKeyAbsent, htrim]
    · simp [withModelFallback, htrim]
  · intro hu hs
    have h1 : k ≠ "" := ne_empty_of_not_all_space hs
    have h3 : jsTrim k ≠ "" := fun hc => hs ((jsTrim_eq_empty_iff k).mp hc)
    simp [apiKeyAbsent, h1, hu, h3]

/-- C10 witness: a whitespace-only key short-circuits, a normal key
passes. -/
theorem credential_absence_characterization_witness :
    (apiKeyAbsent (some "  ") = true ∧
      withModelFallback (fun _ _ => (.ok 0 : Except ErrVal Nat))
        ["gemini-2.5-flash", "gemini-3-flash-preview"] (some "  ") =
        (.err missingKeyError, [], [])) ∧
    apiKeyAbsent (some "sk-123") = false := by
  refine ⟨(credential_absence_characterization "  "
      (fun _ _ => (.ok 0 : Except ErrVal Nat))
      ["gemini-2.5-flash", "gemini-3-flash-preview"]).2.1 (by decide),
    (credential_absence_characterization "sk-123"
      (fun _ _ => (.ok 0 : Except ErrVal Nat))
      ["gemini-2.5-flash", "gemini-3-flash-preview"]).2.2 (by decide) (by decide)⟩

/-! ## C9 : missing credential short-circuits before any model -/

/-- C9: when the credential is absent the orchestrator returns the fixed
missing-credential error with no model tried and no wait, and that error
is Fatal under the retry classification (never retried). -/
theorem missing_credential_short_circuit {α : Type}
    (op : String → String → Except ErrVal α) (models : List String)
    (apiKey : Option String) (h : apiKeyAbsent apiKey = true) :
    withModelFallback op models apiKey = (.err missingKeyError, [], []) ∧
    (∀ b, isRetryableError missingKeyError b = false) := by
  refine ⟨?_, by decide⟩
  cases apiKey with
  | none => rfl
  | some k =>
    simp only [apiKeyAbsent] at h
    simp [withModelFallback, h]

/-- C9 witness: unset credential, concrete operation and models. -/
theorem missing_credential_short_circuit_witness :
    withModelFallback (fun _ _ => (.ok 1 : Except ErrVal Nat))
      ["gemini-2.5-flash", "gemini-3-flash-preview"] none =
      (.err missingKeyError, [], []) ∧
    isRetryableError missingKeyError true = false := by
  have h := missing_credential_short_circuit
    (fun _ _ => (.ok 1 : Except ErrVal Nat))
    ["gemini-2.5-flash", "gemini-3-flash-preview"] none (by decide)
  exact ⟨h.1, h.2 true⟩

/-! ## C7 : research task degrades to three generic prompts -/

/-- C7: whenever the research response text cannot be parsed as
structured data (the parse raises an error), the task does not fail: it
returns exactly the three generic topic-derived prompts, hence exactly 3
prompts, all non-empty. -/
theorem research_parse_failure_yields_three_prompts
    (jp : String → Option (Option (List String)))
    (respText : Option String) (topic : String) (e : ErrVal)
    (h : parseAIResponse jp respText = .error e) :
    generateResearchPrompts jp respText topic =
      ["Dental clinical view of " ++ topic,
       "Anatomical diagram of " ++ topic,
       "X-ray of " ++ topic] ∧
    (generateResearchPrompts jp respText topic).length = 3 ∧
    ∀ p ∈ generateResearchPrompts jp respText topic, p ≠ "" := by
  have hmain : generateResearchPrompts jp respText topic =
      ["Dental clinical view of " ++ topic,
       "Anatomical diagram of " ++ topic,
       "X-ray of " ++ topic] := by
    simp [generateResearchPrompts, h]
  refine ⟨hmain, by rw [hmain]; rfl, ?_⟩
  rw [hmain]
  intro p hp
  simp only [List.mem_cons, List.not_mem_nil, or_false] at hp
  rcases hp with rfl | rfl | rfl <;>
    exact append_ne_empty_left topic (by decide)

/-- C7 witness: an unparseable response body. -/
theorem research_parse_failure_yields_three_prompts_witness :
    generateResearchPrompts (fun _ => none) (some "no json here") "caries" =
      ["Dental clinical view of caries",
       "Anatomical diagram of caries",
       "X-ray of caries"] ∧
    (generateResearchPrompts (fun _ => none) (some "no json here") "caries").length = 3 := by
  have h := research_parse_failure_yields_three_prompts (fun _ => none)
    (some "no json here") "caries"
    (mkError "فشل في قراءة بيانات JSON من الاستجابة.") rfl
  exact ⟨h.1, h.2.1⟩

/-! ## C2 : state effects of a primary-task failure -/

/-- C2 counterexample: the quiz and gallery branches clear their prior
published content before the primary task runs, so a primary failure
does not leave prior content untouched — the prior quiz is gone and the
prior gallery items are gone. -/
theorem quiz_gallery_failure_clears_prior_content :
    (runQuizBranch
      ⟨some "S", some "P", [ItemStatus.completed], some "Q", [1], ["x"],
        none, false, false⟩ (.error (mkError "boom"))).quizData = none ∧
    (⟨some "S", some "P", [ItemStatus.completed], some "Q", [1], ["x"],
        none, false, false⟩ : AppState).quizData = some "Q" ∧
    (runGalleryBranch
      ⟨some "S", some "P", [ItemStatus.completed], some "Q", [1], ["x"],
        none, false, false⟩ (.error (mkError "boom"))).galleryItems = [] ∧
    (⟨some "S", some "P", [ItemStatus.completed], some "Q", [1], ["x"],
        none, false, false⟩ : AppState).galleryItems = [ItemStatus.completed] := by
  refine ⟨?_, rfl, ?_, rfl⟩ <;> rfl

/-- C2 amended: on a primary-task failure every branch surfaces exactly
one status message; the simulation and practical branches leave all
prior workspace content untouched (practical additionally resets its
step-check marks), while the quiz and gallery branches have already
cleared their own prior content (`quizData := none`,
`galleryItems := []`) before the task ran, so that content stays
cleared. -/
theorem primary_failure_state_effects (st : AppState) (e : ErrVal) :
    ((runSimulationBranch st (.error e)).simulationData = st.simulationData ∧
     (runSimulationBranch st (.error e)).practicalData = st.practicalData ∧
     (runSimulationBranch st (.error e)).galleryItems = st.galleryItems ∧
     (runSimulationBranch st (.error e)).quizData = st.quizData ∧
     (runSimulationBranch st (.error e)).errorStatus =
       some (deriveStatus e).1) ∧
    ((runPracticalBranch st (.error e)).practicalData = st.practicalData ∧
     (runPracticalBranch st (.error e)).simulationData = st.simulationData ∧
     (runPracticalBranch st (.error e)).checkedPracticalSteps = [] ∧
     (runPracticalBranch st (.error e)).errorStatus =
       some (deriveStatus e).1) ∧
    ((runGalleryBranch st (.error e)).galleryItems = [] ∧
     (runGalleryBranch st (.error e)).simulationData = st.simulationData ∧
     (runGalleryBranch st (.error e)).errorStatus =
       some (deriveStatus e).1) ∧
    ((runQuizBranch st (.error e)).quizData = none ∧
     (runQuizBranch st (.error e)).revealedAnswers = [] ∧
     (runQuizBranch st (.error e)).errorStatus =
       some (deriveStatus e).1) := by
  refine ⟨⟨?_, ?_, ?_, ?_, ?_⟩, ⟨?_, ?_, ?_, ?_⟩, ⟨?_, ?_, ?_⟩, ⟨?_, ?_, ?_⟩⟩ <;>
    simp [runSimulationBranch, runPracticalBranch, runGalleryBranch,
      runQuizBranch, catchBlock, branchPrologue]

/-! ## C6 : failure isolation and strict sequencing -/

/-- C6: a batch item's final status depends only on its own outcome
(`map outStatus`); for a 3-item batch whose middle item fails the final
statuses are `[completed, failed, completed]` in array order, in both
the gallery and the practical loop, and in the event trace item 2's
failure is recorded strictly before item 3's sub-request starts. -/
theorem batch_failure_isolation_and_sequencing :
    (∀ (i : Nat) (outs : List (Option String)),
      (galleryLoop i outs).2 = outs.map outStatus) ∧
    (∀ a b : String,
      galleryLoop 0 [some a, none, some b] =
        ([BatchEv.request 0, BatchEv.record 0 .completed, BatchEv.cooldown 6000,
          BatchEv.request 1, BatchEv.record 1 .failed,
          BatchEv.request 2, BatchEv.record 2 .completed, BatchEv.cooldown 6000],
         [ItemStatus.completed, ItemStatus.failed, ItemStatus.completed]) ∧
      practicalLoop 0 [(true, some a), (true, none), (true, some b)] =
        ([BatchEv.record 0 .loading, BatchEv.request 0,
          BatchEv.record 0 .completed, BatchEv.cooldown 6000,
          BatchEv.record 1 .loading, BatchEv.request 1, BatchEv.record 1 .failed,
          BatchEv.record 2 .loading, BatchEv.request 2,
          BatchEv.record 2 .completed, BatchEv.cooldown 6000],
         [ItemStatus.completed, ItemStatus.failed, ItemStatus.completed])) ∧
    ([BatchEv.request 0, BatchEv.record 0 .completed, BatchEv.cooldown 6000,
      BatchEv.request 1, BatchEv.record 1 .failed,
      BatchEv.request 2, BatchEv.record 2 .completed,
      BatchEv.cooldown 6000].indexOf (BatchEv.record 1 .failed) <
     [BatchEv.request 0, BatchEv.record 0 .completed, BatchEv.cooldown 6000,
      BatchEv.request 1, BatchEv.record 1 .failed,
      BatchEv.request 2, BatchEv.record 2 .completed,
      BatchEv.cooldown 6000].indexOf (BatchEv.request 2)) := by
  refine ⟨?_, ?_, by decide⟩
  · intro i outs
    induction outs generalizing i with
    | nil => rfl
    | cons out rest ih => simp [galleryLoop, ih]
  · intro a b
    exact ⟨rfl, rfl⟩

/-! ## C1 : cooldown placement in the batch loops -/

/-- C1 counterexample: in the simulation image loop the 6-second
cooldown runs after every sub-request, also after one that produced no
image — here a cooldown sits between failed sub-request 0 and
sub-request 1. -/
theorem simulation_cooldown_after_failed_subrequest :
    simulationLoop 0 [none, some "img1", some "img2"] =
      [BatchEv.request 0, BatchEv.cooldown 6000,
       BatchEv.request 1, BatchEv.record 1 .completed, BatchEv.cooldown 6000,
       BatchEv.request 2, BatchEv.record 2 .completed, BatchEv.cooldown 6000] ∧
    (simulationLoop 0 [none, some "img1", some "img2"]).take 3 =
      [BatchEv.request 0, BatchEv.cooldown 6000, BatchEv.request 1] := by
  exact ⟨rfl, rfl⟩

/-- C1 amended: the practical and gallery loops insert the 6-second
cooldown exactly after each sub-request that produced an image and
never after a failed one, while the simulation loop inserts the
cooldown after every sub-request, successful or failed. -/
theorem batch_cooldown_placement :
    (∀ (i : Nat) (outs : List (Option String)),
      (galleryLoop i outs).1 = blocksConcat galleryBlockSpec i outs) ∧
    (∀ (i : Nat) (steps : List (Bool × Option String)),
      (practicalLoop i steps).1 = blocksConcat practicalBlockSpec i steps) ∧
    (∀ (i : Nat) (outs : List (Option String)),
      simulationLoop i outs = blocksConcat simulationBlockSpec i outs) := by
  refine ⟨?_, ?_, ?_⟩
  · intro i outs
    induction outs generalizing i with
    | nil => rfl
    | cons out rest ih =>
      simp [galleryLoop, blocksConcat, galleryBlockSpec, ih]
  · intro i steps
    induction steps generalizing i with
    | nil => rfl
    | cons s rest ih =>
      obtain ⟨hasPrompt, out⟩ := s
      cases hasPrompt <;>
        simp [practicalLoop, blocksConcat, practicalBlockSpec, ih]
  · intro i outs
    induction outs generalizing i with
    | nil => rfl
    | cons out rest ih =>
      cases out <;>
        simp [simulationLoop, blocksConcat, simulationBlockSpec, ih]

/-! ## More helper lemmas for the retry claims -/

/-- A rate-limit-flavored error is retried when quota retries are
allowed. -/
theorem retryable_of_quotaFlavored {e : ErrVal}
    (h : isQuotaFlavored e = true) : isRetryableError e true = true := by
  simp [isRetryableError, h]

/-- `withRetry`'s own quota test implies the system's rate-limit
classification (the converse fails: the classification also reads
nested messages and stringified bodies). -/
theorem retryIsQuota_imp_quotaFlavored {e : ErrVal}
    (h : retryIsQuota e = true) : isQuotaFlavored e = true := by
  cases e with
  | strErr s =>
    have hfalse : retryIsQuota (ErrVal.strErr s) = false := rfl
    rw [hfalse] at h
    cases h
  | objErr o =>
    obtain ⟨msgOpt, statusOpt, codeOpt, emOpt, ecOpt⟩ := o
    cases msgOpt with
    | none =>
      have hred : retryIsQuota (ErrVal.objErr ⟨none, statusOpt, codeOpt, emOpt, ecOpt⟩) =
          (statusOpt == some 429) := by
        simp [retryIsQuota, jsOrStr, jsToLower, strIncludes, charInfix, charPrefix]
      rw [hred] at h
      have hst : statusOpt = some 429 := by simpa using h
      subst hst
      simp [isQuotaFlavored, jsStatus, jsOrInt]
    | some m =>
      by_cases hm : m = ""
      · subst hm
        have hred : retryIsQuota (ErrVal.objErr ⟨some "", statusOpt, codeOpt, emOpt, ecOpt⟩) =
            (statusOpt == some 429) := by
          simp [retryIsQuota, jsOrStr, jsToLower, strIncludes, charInfix, charPrefix]
        rw [hred] at h
        have hst : statusOpt = some 429 := by simpa using h
        subst hst
        simp [isQuotaFlavored, jsStatus, jsOrInt]
      · have hred : retryIsQuota (ErrVal.objErr ⟨some m, statusOpt, codeOpt, emOpt, ecOpt⟩) =
            (strIncludes (jsToLower m) "quota" || strIncludes (jsToLower m) "429" ||
             strIncludes (jsToLower m) "resource_exhausted" ||
             (statusOpt == some 429)) := by
          simp [retryIsQuota, jsOrStr, hm]
        have hmsg : errLowerMsg (ErrVal.objErr ⟨some m, statusOpt, codeOpt, emOpt, ecOpt⟩) =
            jsToLower m := by
          simp [errLowerMsg, jsOrStr, hm]
        rw [hred] at h
        rcases Bool.or_eq_true_iff.mp h with h' | hst
        · rcases Bool.or_eq_true_iff.mp h' with h'' | h3
          · rcases Bool.or_eq_true_iff.mp h'' with h1 | h2
            · simp [isQuotaFlavored, hmsg, h1]
            · simp [isQuotaFlavored, hmsg, h2]
          · simp [isQuotaFlavored, hmsg, h3]
        · have : statusOpt = some 429 := by simpa using hst
          subst this
          simp [isQuotaFlavored, jsStatus, jsOrInt]

/-! ## C3 : backoff schedule under rate-limited failures -/

/-- C3 counterexample: an error that the system classifies as
rate-limited (it matches the quota text through the nested
`error.error.message` field, so `isRetryableError` retries it as a
quota failure) nevertheless receives the Transient backoff base: the
waits of a 3-attempt run are 2000 ms and 4000 ms, below the claimed
8000 ms minimum. -/
theorem quota_flavored_error_gets_transient_backoff :
    isQuotaFlavored (ErrVal.objErr ⟨none, none, none, some "quota exceeded", none⟩) = true ∧
    isRetryableError (ErrVal.objErr ⟨none, none, none, some "quota exceeded", none⟩) true = true ∧
    (withRetry
      (fun _ => (.error (ErrVal.objErr ⟨none, none, none, some "quota exceeded", none⟩) :
        Except ErrVal Nat))
      (fun _ => 0) 3 true).2.1 = 3 ∧
    (withRetry
      (fun _ => (.error (ErrVal.objErr ⟨none, none, none, some "quota exceeded", none⟩) :
        Except ErrVal Nat))
      (fun _ => 0) 3 true).2.2 = [2000, 4000] ∧
    ¬ ((8000 : ℚ) ≤ 2000) := by
  have hq : retryIsQuota
      (ErrVal.objErr ⟨none, none, none, some "quota exceeded", none⟩) = false := by decide
  have hr : isRetryableError
      (ErrVal.objErr ⟨none, none, none, some "quota exceeded", none⟩) true = true := by decide
  refine ⟨by decide, hr, ?_, ?_, by norm_num⟩
  · simp [withRetry, withRetryAux, hr, hq]
  · simp [withRetry, withRetryAux, hr, hq]
    norm_num

/-- C3 amended: when every attempt fails with an error carrying the
rate-limit signal where `withRetry`'s own quota test reads it (the
error's own `message` text or `status === 429`), a
`maxAttempts = 3`, `allowQuotaRetry = true` run makes exactly 3
attempts and the wait before attempt i (i = 1, 2) lies in
[8000 * 2^(i-1), 8000 * 2^(i-1) + 1000). -/
theorem rate_limited_message_backoff_schedule {α : Type}
    (fn : Nat → Except ErrVal α) (jitter : Nat → ℚ)
    (hfail : ∀ i, ∃ e, fn i = .error e ∧ retryIsQuota e = true)
    (hj : ∀ i, 0 ≤ jitter i ∧ jitter i < 1000) :
    (withRetry fn jitter 3 true).2.1 = 3 ∧
    ∃ w1 w2, (withRetry fn jitter 3 true).2.2 = [w1, w2] ∧
      8000 * 2 ^ 0 ≤ w1 ∧ w1 < 8000 * 2 ^ 0 + 1000 ∧
      8000 * 2 ^ 1 ≤ w2 ∧ w2 < 8000 * 2 ^ 1 + 1000 := by
  obtain ⟨e0, h0, hq0⟩ := hfail 0
  obtain ⟨e1, h1, hq1⟩ := hfail 1
  obtain ⟨e2, h2, hq2⟩ := hfail 2
  have hr0 := retryable_of_quotaFlavored (retryIsQuota_imp_quotaFlavored hq0)
  have hr1 := retryable_of_quotaFlavored (retryIsQuota_imp_quotaFlavored hq1)
  have hr2 := retryable_of_quotaFlavored (retryIsQuota_imp_quotaFlavored hq2)
  refine ⟨?_, 8000 * 2 ^ 0 + jitter 0, 8000 * 2 ^ 1 + jitter 1, ?_, ?_, ?_, ?_, ?_⟩
  · simp [withRetry, withRetryAux, h0, h1, h2, hr0, hr1, hr2]
  · simp [withRetry, withRetryAux, h0, h1, h2, hr0, hr1, hr2, hq0, hq1, hq2]
  · have := (hj 0).1; nlinarith
  · have := (hj 0).2; nlinarith
  · have := (hj 1).1; nlinarith
  · have := (hj 1).2; nlinarith

/-- C3 witness: every attempt throws `new Error("quota hit")` and the
jitter is a constant 500 ms. -/
theorem rate_limited_message_backoff_schedule_witness :
    (withRetry (fun _ => (.error (mkError "quota hit") : Except ErrVal Nat))
      (fun _ => (500 : ℚ)) 3 true).2.1 = 3 ∧
    ∃ w1 w2,
      (withRetry (fun _ => (.error (mkError "quota hit") : Except ErrVal Nat))
        (fun _ => (500 : ℚ)) 3 true).2.2 = [w1, w2] ∧
      8000 * 2 ^ 0 ≤ w1 ∧ w1 < 8000 * 2 ^ 0 + 1000 ∧
      8000 * 2 ^ 1 ≤ w2 ∧ w2 < 8000 * 2 ^ 1 + 1000 :=
  rate_limited_message_backoff_schedule
    (fun _ => (.error (mkError "quota hit") : Except ErrVal Nat))
    (fun _ => (500 : ℚ))
    (fun _ => ⟨mkError "quota hit", rfl, by decide⟩)
    (fun _ => ⟨by norm_num, by norm_num⟩)

/-! ## C4 : Fatal errors abort after one attempt, fallback advances -/

/-- C4: a Fatal error (not retryable under any quota setting) ends
`withRetry` after exactly one attempt with no backoff wait, for any
positive attempt budget; and for candidate models [A, B] where A always
fails with that Fatal error and B always succeeds, the composed
pipeline returns B's result having made exactly one adapter attempt
against A (and one against B). -/
theorem fatal_error_single_attempt_and_fallback_advances {α : Type}
    (fn : Nat → Except ErrVal α)
    (adapter : String → String → Nat → Except ErrVal α)
    (jitter : Nat → ℚ) (retries : Nat) (retryOnQuota : Bool)
    (e : ErrVal) (v : α) (A B key : String)
    (hretries : 1 ≤ retries)
    (hfn : fn 0 = .error e)
    (hFatal : ∀ b, isRetryableError e b = false)
    (hne : A ≠ B)
    (hA : ∀ i, adapter A key i = .error e)
    (hB : ∀ i, adapter B key i = .ok v)
    (hkey : apiKeyAbsent (some key) = false) :
    withRetry fn jitter retries retryOnQuota = (.err e, 1, []) ∧
    (runGeneration adapter jitter retries retryOnQuota [A, B] (some key)).1 =
      .ok v ∧
    (runGeneration adapter jitter retries retryOnQuota [A, B] (some key)).2.1 =
      [(A, 1), (B, 1)] := by
  have haux : ∀ g : Nat → Except ErrVal α, g 0 = .error e →
      withRetry g jitter retries retryOnQuota = (.err e, 1, []) := by
    intro g hg
    obtain ⟨n, rfl⟩ : ∃ n, retries = n + 1 := ⟨retries - 1, by omega⟩
    simp [withRetry, withRetryAux, hg, hFatal retryOnQuota]
  have hBrun : withRetry (adapter B key) jitter retries retryOnQuota =
      (.ok v, 1, []) := by
    obtain ⟨n, rfl⟩ : ∃ n, retries = n + 1 := ⟨retries - 1, by omega⟩
    simp [withRetry, withRetryAux, hB 0]
  have hArun := haux (adapter A key) (hA 0)
  simp only [apiKeyAbsent, Bool.or_eq_false_iff, decide_eq_false_iff_not] at hkey
  refine ⟨haux fn hfn, ?_, ?_⟩ <;>
    simp [runGeneration, runGenerationAux, hArun, hBrun, hkey.1.1, hkey.1.2,
      hkey.2, List.indexOf_cons_self]

/-- C4 witness: concrete Fatal error, adapter and key. -/
theorem fatal_error_single_attempt_and_fallback_advances_witness :
    withRetry (fun _ => (.error (mkError "boom") : Except ErrVal Nat))
      (fun _ => 0) 3 true = (.err (mkError "boom"), 1, []) ∧
    (runGeneration
      (fun m _ _ => if m = "a" then (.error (mkError "boom") : Except ErrVal Nat)
        else .ok 5)
      (fun _ => 0) 3 true ["a", "b"] (some "k")).1 = .ok 5 ∧
    (runGeneration
      (fun m _ _ => if m = "a" then (.error (mkError "boom") : Except ErrVal Nat)
        else .ok 5)
      (fun _ => 0) 3 true ["a", "b"] (some "k")).2.1 = [("a", 1), ("b", 1)] :=
  fatal_error_single_attempt_and_fallback_advances
    (fun _ => (.error (mkError "boom") : Except ErrVal Nat))
    (fun m _ _ => if m = "a" then (.error (mkError "boom") : Except ErrVal Nat)
      else .ok 5)
    (fun _ => 0) 3 true (mkError "boom") 5 "a" "b" "k"
    (by norm_num) rfl (by decide) (by decide)
    (fun _ => rfl) (fun _ => rfl) (by decide)

/-! ## C5 : inter-model cooldown selection -/

/-- C5 counterexample: an error whose text signals quota exhaustion via
`resource_exhausted` is rate-limit-flavored under the system's
classification (`isRetryableError`'s quota branch matches it), yet the
fallback orchestrator's own narrower check misses it and waits only
1000 ms — not 8000 ms — before the next candidate model. -/
theorem fallback_cooldown_ignores_system_classification :
    isQuotaFlavored (mkError "resource_exhausted") = true ∧
    isRetryableError (mkError "resource_exhausted") true = true ∧
    fallbackIsQuota (mkError "resource_exhausted") = false ∧
    (withModelFallback
      (fun _ _ => (.error (mkError "resource_exhausted") : Except ErrVal Nat))
      ["a", "b"] (some "key")).2.2 = [(1000 : ℚ)] ∧
    (1000 : ℚ) ≠ 8000 := by
  refine ⟨by decide, by decide, by decide, ?_, by norm_num⟩
  have h : fallbackIsQuota (mkError "resource_exhausted") = false := by decide
  simp [withModelFallback, withModelFallbackAux, h, List.indexOf_cons_self,
    jsTrim, jsTrimList, isJsSpace]

/-- C5 amended: with two candidate models and a failing first model,
the inter-model cooldown is 8000 ms exactly when the failed error's own
`message` contains "429" or (case-insensitively) "quota" — the
orchestrator's own check, which ignores the retry classification's
status codes, nested message fields and `resource_exhausted` — and
1000 ms otherwise, and it is the only cooldown of the run. -/
theorem fallback_cooldown_message_rule {α : Type}
    (op : String → String → Except ErrVal α) (m1 m2 key : String)
    (e : ErrVal) (hne : m1 ≠ m2)
    (hkey : apiKeyAbsent (some key) = false)
    (h1 : op m1 key = .error e) :
    (withModelFallback op [m1, m2] (some key)).2.2 =
      [if fallbackIsQuota e then (8000 : ℚ) else 1000] := by
  simp only [apiKeyAbsent, Bool.or_eq_false_iff, decide_eq_false_iff_not] at hkey
  have hidx2 : ([m1, m2].indexOf m2 : Nat) = 1 := by
    rw [List.indexOf_cons_ne _ hne]
    simp
  cases h2 : op m2 key with
  | ok v =>
    simp [withModelFallback, withModelFallbackAux, h1, h2, hkey.1.1, hkey.1.2,
      hkey.2, List.indexOf_cons_self]
  | error e2 =>
    simp [withModelFallback, withModelFallbackAux, h1, h2, hkey.1.1, hkey.1.2,
      hkey.2, List.indexOf_cons_self, hidx2]

/-- C5 witness: a 429-texted failure on the first model yields the
8000 ms cooldown. -/
theorem fallback_cooldown_message_rule_witness :
    (withModelFallback
      (fun m _ => if m = "x" then (.error (mkError "429 Too Many Requests") :
        Except ErrVal Nat) else .ok 7)
      ["x", "y"] (some "key")).2.2 =
      [if fallbackIsQuota (mkError "429 Too Many Requests") then (8000 : ℚ)
       else 1000] :=
  fallback_cooldown_message_rule
    (fun m _ => if m = "x" then (.error (mkError "429 Too Many Requests") :
      Except ErrVal Nat) else .ok 7)
    "x" "y" "key" (mkError "429 Too Many Requests")
    (by decide) (by decide) (by norm_num)

/-! ## Lemmas about fence stripping, trimming and brace slicing (for C8) -/

/-- No fence alternative matches at a position not holding a backtick. -/
theorem fenceSkip_cons_ne {c : Char} (l : List Char) (h : c ≠ '`') :
    fenceSkip (c :: l) = none := by
  unfold fenceSkip
  split
  · next heq =>
    exact absurd (by injection heq) h
  · rfl

/-- A fence match consumes at least three characters. -/
theorem fenceSkip_length {l r : List Char} (h : fenceSkip l = some r) :
    r.length + 3 ≤ l.length := by
  unfold fenceSkip at h
  split at h
  · injection h with h
    subst h
    split
    · split <;> simp <;> omega
    · simp
  · cases h

/-- The fuel of `stripFencesGo` is irrelevant once it covers the list
length. -/
theorem stripFencesGo_congr :
    ∀ (f g : Nat) (l : List Char), l.length ≤ f → l.length ≤ g →
      stripFencesGo f l = stripFencesGo g l := by
  intro f
  induction f with
  | zero =>
    intro g l h1 _
    have : l = [] := List.eq_nil_of_length_eq_zero (by omega)
    subst this
    cases g <;> rfl
  | succ f ih =>
    intro g l h1 h2
    cases l with
    | nil => cases g <;> rfl
    | cons c cs =>
      cases g with
      | zero => simp at h2
      | succ g =>
        cases hfs : fenceSkip (c :: cs) with
        | some rest =>
          have hlen := fenceSkip_length hfs
          simp only [List.length_cons] at h1 h2 hlen
          simp only [stripFencesGo, hfs]
          exact ih g rest (by omega) (by omega)
        | none =>
          simp only [List.length_cons] at h1 h2
          simp only [stripFencesGo, hfs]
          rw [ih g cs (by omega) (by omega)]

/-- `stripFences` walks over a non-backtick head character. -/
theorem stripFences_cons_ne {c : Char} (l : List Char) (h : c ≠ '`') :
    stripFences (c :: l) = c :: stripFences l := by
  show stripFencesGo (c :: l).length (c :: l) = _
  simp only [List.length_cons]
  simp only [stripFencesGo, fenceSkip_cons_ne _ h]
  rfl

/-- `stripFences` passes an entirely backtick-free prefix through. -/
theorem stripFences_append_of_ne {l : List Char} (r : List Char)
    (h : ∀ c ∈ l, c ≠ '`') :
    stripFences (l ++ r) = l ++ stripFences r := by
  induction l with
  | nil => rfl
  | cons c l' ih =>
    rw [List.cons_append, stripFences_cons_ne _ (h c (by simp)),
      ih (fun c hc => h c (by simp [hc]))]
    rfl

/-- `stripFences` removes a leading ```` ```json ```` fence with its
newline. -/
theorem stripFences_fence8 (r : List Char) :
    stripFences ('`' :: '`' :: '`' :: 'j' :: 's' :: 'o' :: 'n' :: '\n' :: r) =
      stripFences r := by
  have hfs : fenceSkip ('`' :: '`' :: '`' :: 'j' :: 's' :: 'o' :: 'n' :: '\n' :: r) =
      some r := rfl
  show stripFencesGo _ _ = _
  simp only [List.length_cons]
  simp only [stripFencesGo, hfs]
  exact stripFencesGo_congr _ _ r (by omega) le_rfl

/-- `stripFences` removes a bare closing fence. -/
theorem stripFences_fence3 : stripFences ['`', '`', '`'] = [] := rfl

/-- `dropWhile` stops no later than a character failing the predicate. -/
theorem dropWhile_append_of_neg {p : Char → Bool} {c : Char}
    (l r : List Char) (hc : p c = false) :
    List.dropWhile p (l ++ c :: r) = List.dropWhile p l ++ c :: r := by
  induction l with
  | nil => simp [List.dropWhile_cons, hc]
  | cons a l' ih =>
    by_cases ha : p a <;> simp [List.dropWhile_cons, ha, ih]

/-- `firstIdx` finds the marker right after a marker-free prefix. -/
theorem firstIdx_append_of_ne {c : Char} {l : List Char} (r : List Char)
    (h : ∀ a ∈ l, a ≠ c) :
    firstIdx c (l ++ c :: r) = some l.length := by
  induction l with
  | nil => simp [firstIdx]
  | cons a l' ih =>
    rw [List.cons_append]
    simp only [firstIdx, if_neg (h a (by simp)),
      ih (fun a ha => h a (by simp [ha]))]
    rfl

/-! ## C8 : parse rule and robustness -/

/-- C8: the parser rejects an `undefined` or empty response body and a
body whose brace slice the external parse rejects, both with Fatal
errors; and for any body consisting of a ```` ```json ```` fence,
brace-free prose, a structured `{...}` span accepted by the external
parse, more brace-free prose and a closing fence, it extracts exactly
that span and returns the parsed value. -/
theorem parse_strips_fences_and_slices_braces {α : Type}
    (jp : String → Option α) (p1 body p2 : List Char) (v : α)
    (h1 : ∀ c ∈ p1, c ≠ '`' ∧ c ≠ '{' ∧ c ≠ '}')
    (h2 : ∀ c ∈ body, c ≠ '`')
    (h3 : ∀ c ∈ p2, c ≠ '`' ∧ c ≠ '{' ∧ c ≠ '}')
    (hjp : jp (String.mk ('{' :: (body ++ ['}']))) = some v) :
    parseAIResponse jp
      (some (String.mk ('`' :: '`' :: '`' :: 'j' :: 's' :: 'o' :: 'n' :: '\n' ::
        (p1 ++ '{' :: (body ++ '}' :: (p2 ++ ['`', '`', '`'])))))) = .ok v ∧
    (∀ jpf : String → Option α,
      parseAIResponse jpf (none : Option String) =
        .error (mkError "استجابة فارغة من المحرك.") ∧
      parseAIResponse jpf (some "") =
        .error (mkError "استجابة فارغة من المحرك.")) ∧
    (∀ t : String, t ≠ "" →
      parseAIResponse (fun _ => (none : Option α)) (some t) =
        .error (mkError "فشل في قراءة بيانات JSON من الاستجابة.")) ∧
    (∀ b : Bool,
      isRetryableError (mkError "فشل في قراءة بيانات JSON من الاستجابة.") b = false ∧
      isRetryableError (mkError "استجابة فارغة من المحرك.") b = false) := by
  refine ⟨?_, fun jpf => ⟨rfl, rfl⟩, ?_, by decide⟩
  · -- the robustness case
    set L : List Char :=
      '`' :: '`' :: '`' :: 'j' :: 's' :: 'o' :: 'n' :: '\n' ::
        (p1 ++ '{' :: (body ++ '}' :: (p2 ++ ['`', '`', '`']))) with hL
    have hne : String.mk L ≠ "" := by
      intro hc
      have := congrArg String.data hc
      simp [hL] at this
    -- fence stripping
    have hP : ∀ c ∈ p1 ++ '{' :: (body ++ '}' :: p2), c ≠ '`' := by
      intro c hc
      simp only [List.mem_append, List.mem_cons] at hc
      rcases hc with hc | hc | hc | hc | hc
      · exact (h1 c hc).1
      · subst hc; decide
      · exact h2 c hc
      · subst hc; decide
      · exact (h3 c hc).1
    have hsf : stripFences L = p1 ++ '{' :: (body ++ '}' :: p2) := by
      rw [hL, stripFences_fence8]
      have hgroup : p1 ++ '{' :: (body ++ '}' :: (p2 ++ ['`', '`', '`'])) =
          (p1 ++ '{' :: (body ++ '}' :: p2)) ++ ['`', '`', '`'] := by
        simp
      rw [hgroup, stripFences_append_of_ne _ hP, stripFences_fence3,
        List.append_nil]
    -- trimming
    set u : List Char := p1.dropWhile isJsSpace with hu
    set w : List Char := (p2.reverse.dropWhile isJsSpace).reverse with hw
    have hclean : jsTrimList (stripFences L) =
        u ++ '{' :: (body ++ '}' :: w) := by
      rw [hsf]
      unfold jsTrimList
      rw [dropWhile_append_of_neg _ _ (by decide : isJsSpace '{' = false)]
      have hrev1 : (u ++ '{' :: (body ++ '}' :: p2)).reverse =
          p2.reverse ++ '}' :: (body.reverse ++ '{' :: u.reverse) := by
        simp
      rw [hrev1, dropWhile_append_of_neg _ _ (by decide : isJsSpace '}' = false)]
      simp [hw]
    -- membership facts for the slice indices
    have hu_mem : ∀ a ∈ u, a ≠ '{' := by
      intro a ha
      exact (h1 a ((List.dropWhile_sublist _).subset ha)).2.1
    have hw_mem : ∀ a ∈ w.reverse, a ≠ '}' := by
      intro a ha
      rw [hw, List.reverse_reverse] at ha
      have : a ∈ p2.reverse := (List.dropWhile_sublist _).subset ha
      exact (h3 a (List.mem_reverse.mp this)).2.2
    -- first `{`
    have hfi : firstIdx '{' (u ++ '{' :: (body ++ '}' :: w)) = some u.length :=
      firstIdx_append_of_ne _ hu_mem
    -- last `}`
    have hli : lastIdx '}' (u ++ '{' :: (body ++ '}' :: w)) =
        some (u.length + body.length + 1) := by
      unfold lastIdx
      have hrev : (u ++ '{' :: (body ++ '}' :: w)).reverse =
          w.reverse ++ '}' :: (body.reverse ++ '{' :: u.reverse) := by
        simp
      rw [hrev, firstIdx_append_of_ne _ hw_mem]
      simp [List.length_append]
      omega
    -- the slice
    have hslice : jsSubstring u.length (u.length + body.length + 1 + 1)
        (u ++ '{' :: (body ++ '}' :: w)) = '{' :: (body ++ ['}']) := by
      unfold jsSubstring
      have hmin : min u.length (u.length + body.length + 1 + 1) = u.length := by
        omega
      have hmax : max u.length (u.length + body.length + 1 + 1) =
          u.length + body.length + 2 := by
        omega
      rw [hmin, hmax]
      have hsplit : u ++ '{' :: (body ++ '}' :: w) =
          (u ++ '{' :: (body ++ ['}'])) ++ w := by
        simp
      rw [hsplit, List.take_left' (by simp; omega), List.drop_left' rfl]
    -- assemble
    show parseAIResponse jp (some (String.mk L)) = .ok v
    have htl : (String.mk L).toList = L := rfl
    simp only [parseAIResponse]
    rw [if_neg hne]
    simp only [htl, hclean, hfi, hli, hslice, hjp]
  · intro t ht
    simp [parseAIResponse, ht]

/-- C8 witness: a fenced response with prose on both sides of the
structured span. -/
theorem parse_strips_fences_and_slices_braces_witness :
    parseAIResponse
      (fun s => if s = "\x7b\"a\":1\x7d" then some 42 else none)
      (some (String.mk ('`' :: '`' :: '`' :: 'j' :: 's' :: 'o' :: 'n' :: '\n' ::
        ("Here is the data: ".toList ++ '{' :: ("\"a\":1".toList ++ '}' ::
          (" hope it helps!".toList ++ ['`', '`', '`'])))))) = .ok 42 :=
  (parse_strips_fences_and_slices_braces
    (fun s => if s = "\x7b\"a\":1\x7d" then some 42 else none)
    "Here is the data: ".toList "\"a\":1".toList " hope it helps!".toList 42
    (by decide) (by decide) (by decide) (by decide)).1
